import Mathlib

/-!
Verification of the sepsis onset determination engine of
`scripts/sepsis_onset_label_assignment.py`.

The embedding models the pandas tables as lists of rows.  Day indices that
may be NaN in the source (e.g. a culture day computed from a missing
admission date) are modelled as `Option Int`, where any comparison against
`none` is false, matching NaN comparison semantics.  Row indices (the
pandas index labels carried by the tables) are `Nat` fields of the rows.
-/

/-- One row of the per-admission blood-culture table: admission id, the
pandas index label of the row, the culture chart datetime (totally ordered,
modelled as `Int`), and the culture day index (possibly NaN). -/
structure CxRow where
  hadm_id : Nat
  cx_index : Nat
  cx_datetime : Int
  cx_day : Option Int
deriving DecidableEq, Repr

/-- One row of the antibiotic-event table: admission id, pandas index label,
and the day index of the antibiotic start date. -/
structure AbxRow where
  hadm_id : Nat
  abx_index : Nat
  abx_day : Int
deriving DecidableEq, Repr

/-- One row of the SOFA-score table: admission id, pandas index label, the
day index of the sample and the score value. -/
structure SofaRow where
  hadm_id : Nat
  sofa_index : Nat
  sofa_day : Int
  sofa_24hours : Int
deriving DecidableEq, Repr

/-- A row of the table returned by `suspected_infections`: the infection
candidate for one qualifying culture. -/
structure CandRow where
  hadm_id : Nat
  onset_datetime : Int
  onset_day : Option Int
  cx_index : Nat
  abx_index : Nat
  is_infection : Nat
deriving DecidableEq, Repr

/-- The verdict returned by `organ_dysfunction`: the flag and (when the flag
is 1) the pandas index labels of the earlier (`sofa_index_1`) and later
(`sofa_index_2`) SOFA samples of the first qualifying pair. -/
structure Verdict where
  is_sepsis : Nat
  sofa_index_1 : Option Nat
  sofa_index_2 : Option Nat
deriving DecidableEq, Repr

/-- A row of the aggregated candidate table built by
`sepsis_onset_candidates`.  Every column is optional because the source
builds this table with `pd.concat(axis=1)` of two frames whose indexes can
disagree, which fills unmatched cells with NaN. -/
structure FullCandidate where
  hadm_id : Option Nat
  onset_datetime : Option Int
  onset_day : Option Int
  cx_index : Option Nat
  abx_index : Option Nat
  is_infection : Option Nat
  is_sepsis : Option Nat
  sofa_index_1 : Option Nat
  sofa_index_2 : Option Nat
deriving DecidableEq, Repr

/-- One row of the final sepsis label table: one row per cohort admission. -/
structure LabelRow where
  hadm_id : Nat
  is_infection : Nat
  is_sepsis : Nat
  onset_datetime : Option Int
  onset_day : Option Int
  cx_index : Option Nat
  abx_index : Option Nat
  sofa_index_1 : Option Nat
  sofa_index_2 : Option Nat
deriving DecidableEq, Repr

/-- `|cx_day - abx_day| <= 2` with NaN-false semantics: the 5-day matching
window test `np.where(np.abs(cx - abx) <= 2, 1, 0)` of the source. -/
def inAbxWindow (cxDay : Option Int) (abxDay : Int) : Bool :=
  match cxDay with
  | some c => decide ((c - abxDay).natAbs ≤ 2)
  | none => false

/-- Builds the candidate row for a qualifying culture `c` matched to
antibiotic `a` (columns kept by `suspected_infections`). -/
def mkCand (c : CxRow) (a : AbxRow) : CandRow :=
  { hadm_id := c.hadm_id
  , onset_datetime := c.cx_datetime
  , onset_day := c.cx_day
  , cx_index := c.cx_index
  , abx_index := a.abx_index
  , is_infection := 1 }

/-- `suspected_infections` of the source: for every culture row (enumerated
by its position after `reset_index`), keep it iff at least one antibiotic
lies in the 5-day window, matching the first qualifying antibiotic in table
order (`abx_index_li[0]`).  The retained position is the row's label in the
returned frame's (gappy) index. -/
def suspected_infections (cx : List CxRow) (abx : List AbxRow) :
    List (Nat × CandRow) :=
  cx.enum.filterMap (fun ic =>
    match abx.filter (fun a => inAbxWindow ic.2.cx_day a.abx_day) with
    | [] => none
    | a :: _ => some (ic.1, mkCand ic.2 a))

/-- `sofa_day.between(day - 3, day + 3, inclusive='both')` with NaN-false
semantics for the centre day. -/
def inSofaWindow (day : Option Int) (d : Int) : Bool :=
  match day with
  | some c => decide (c - 3 ≤ d) && decide (d ≤ c + 3)
  | none => false

/-- The SOFA rows restricted to the 7-day window, in table order. -/
def sofaWindow (day : Option Int) (sofa : List SofaRow) : List SofaRow :=
  sofa.filter (fun s => inSofaWindow day s.sofa_day)

/-- The score values of the restricted window. -/
def sofaVals (day : Option Int) (sofa : List SofaRow) : List Int :=
  (sofaWindow day sofa).map (fun s => s.sofa_24hours)

/-- All strictly-lower-triangular index pairs `(i, j)`, `j < i < n`, in
row-major order: the traversal order of `np.nonzero` over
`np.tril(diff, -1)`. -/
def trilPairs (n : Nat) : List (Nat × Nat) :=
  (List.range n).flatMap (fun i => (List.range i).map (fun j => (i, j)))

/-- The first pair `(later, earlier)` in row-major order whose score
difference `v[later] - v[earlier]` is strictly greater than 1
(`(increase > 1).nonzero()` taking element 0 of both index arrays). -/
def firstIncPair (v : List Int) : Option (Nat × Nat) :=
  (trilPairs v.length).find? (fun p => decide (v.getD p.1 0 - v.getD p.2 0 > 1))

/-- `organ_dysfunction` of the source: restrict to the 7-day window, scan
the lower-triangular pairwise difference matrix for the first pair with an
increase strictly above 1, and return the flag with the pandas index
labels of the earlier and later samples (NaN refs when no pair exists). -/
def organ_dysfunction (day : Option Int) (sofa : List SofaRow) : Verdict :=
  match firstIncPair (sofaVals day sofa) with
  | none => ⟨0, none, none⟩
  | some (i, j) =>
      ⟨1, ((sofaWindow day sofa)[j]?).map (fun s => s.sofa_index),
          ((sofaWindow day sofa)[i]?).map (fun s => s.sofa_index)⟩

/-- One row of the concatenation `pd.concat([candidate_df, verdict_df],
axis=1)`: the candidate part is present iff the row label belongs to the
candidate frame's index, the verdict part iff it belongs to the verdict
frame's `RangeIndex`; absent cells become NaN. -/
def mkFull (c? : Option CandRow) (v? : Option Verdict) : FullCandidate :=
  { hadm_id := c?.map (fun c => c.hadm_id)
  , onset_datetime := c?.map (fun c => c.onset_datetime)
  , onset_day := c?.bind (fun c => c.onset_day)
  , cx_index := c?.map (fun c => c.cx_index)
  , abx_index := c?.map (fun c => c.abx_index)
  , is_infection := c?.map (fun c => c.is_infection)
  , is_sepsis := v?.map (fun v => v.is_sepsis)
  , sofa_index_1 := v?.bind (fun v => v.sofa_index_1)
  , sofa_index_2 := v?.bind (fun v => v.sofa_index_2) }

/-- The outer-join concatenation of the (gappy-indexed) candidate frame
with the `RangeIndex`-ed verdict frame over one admission: the result's
index is the sorted union of the two indexes, both contained in
`range n` where `n` is the number of culture rows of the admission. -/
def alignedCandidates (n : Nat) (cands : List (Nat × CandRow))
    (verdicts : List Verdict) : List FullCandidate :=
  ((List.range n).filter
      (fun i => decide (i < verdicts.length) || (cands.map Prod.fst).contains i)).map
    (fun i => mkFull ((cands.find? (fun p => p.1 == i)).map Prod.snd) verdicts[i]?)

/-- Distinct values in first-occurrence order, skipping values already
seen. -/
def uniqueKeepAux : List Nat → List Nat → List Nat
  | [], _ => []
  | a :: t, seen =>
      if seen.contains a then uniqueKeepAux t seen
      else a :: uniqueKeepAux t (a :: seen)

/-- First-occurrence distinct values, as `pandas.Series.unique`. -/
def uniqueKeep (l : List Nat) : List Nat :=
  uniqueKeepAux l []

/-- The per-admission body of the loop in `sepsis_onset_candidates`: slice
the three tables to the admission, find suspected infections, compute one
dysfunction verdict per candidate, and concatenate the two frames. -/
def patient_candidates (h : Nat) (cx : List CxRow) (abx : List AbxRow)
    (sofa : List SofaRow) : List FullCandidate :=
  let cxh := cx.filter (fun r => r.hadm_id == h)
  let abxh := abx.filter (fun r => r.hadm_id == h)
  let sofah := sofa.filter (fun r => r.hadm_id == h)
  let cands := suspected_infections cxh abxh
  let verdicts := cands.map (fun p => organ_dysfunction p.2.onset_day sofah)
  alignedCandidates cxh.length cands verdicts

/-- The concatenation of all admissions' candidate tables, iterating the
admission ids of the culture table in first-occurrence order. -/
def sepsis_onset_candidates_core (cx : List CxRow) (abx : List AbxRow)
    (sofa : List SofaRow) : List FullCandidate :=
  (uniqueKeep (cx.map (fun r => r.hadm_id))).flatMap
    (fun h => patient_candidates h cx abx sofa)

/-- `sepsis_onset_candidates` of the source: `pd.concat` of the accumulated
per-admission tables.  When no admission contributes a candidate the
accumulator list is empty and `pd.concat([])` raises `ValueError`;
that failure is modelled as `none`. -/
def sepsis_onset_candidates (cx : List CxRow) (abx : List AbxRow)
    (sofa : List SofaRow) : Option (List FullCandidate) :=
  let core := sepsis_onset_candidates_core cx abx sofa
  if core.isEmpty then none else some core

/-- Maximum of a list of naturals, 0 for the empty list: the NaN-skipping
`groupby(...).max()` followed by `fillna(0)`. -/
def natMax0 (l : List Nat) : Nat :=
  l.foldr max 0

/-- The label row the resolver produces for one cohort admission `h`:
flags are the NaN-skipping maxima of the admission's candidate rows
(`fillna(0)` when there are none) and the onset columns come from the
first candidate row, in input order, with `is_sepsis == 1`
(`groupby("hadm_id").head(1)` of the positive rows, merged `how='left'`). -/
def mkLabelRow (h : Nat) (cands : List FullCandidate) : LabelRow :=
  let grp := cands.filter (fun c => c.hadm_id == some h)
  let r := (cands.filter
      (fun c => c.is_sepsis == some 1 && c.hadm_id == some h)).head?
  { hadm_id := h
  , is_infection := natMax0 (grp.filterMap (fun c => c.is_infection))
  , is_sepsis := natMax0 (grp.filterMap (fun c => c.is_sepsis))
  , onset_datetime := r.bind (fun c => c.onset_datetime)
  , onset_day := r.bind (fun c => c.onset_day)
  , cx_index := r.bind (fun c => c.cx_index)
  , abx_index := r.bind (fun c => c.abx_index)
  , sofa_index_1 := r.bind (fun c => c.sofa_index_1)
  , sofa_index_2 := r.bind (fun c => c.sofa_index_2) }

/-- `generate_sepsis_label_info` of the source: one row per row of the
cohort table, sorted ascending by admission id (`sort_values('hadm_id')`),
each row produced by the two left merges with the flag and onset tables. -/
def generate_sepsis_label_info (cohort : List Nat)
    (cands : List FullCandidate) : List LabelRow :=
  (List.insertionSort (fun a b => a ≤ b) cohort).map
    (fun h => mkLabelRow h cands)

/-- The core of `assign_sepsis_labels`: build the candidate table (which
can fail, see `sepsis_onset_candidates`) and resolve it into labels.  The
return value is the label table alone; the source has no error report. -/
def assign_sepsis_labels (cohort : List Nat) (cx : List CxRow)
    (abx : List AbxRow) (sofa : List SofaRow) : Option (List LabelRow) :=
  (sepsis_onset_candidates cx abx sofa).map
    (fun cands => generate_sepsis_label_info cohort cands)

/-! Concrete inputs used to instantiate the theorems below (taken from the
worked examples of the clinical methodology). -/

/-- A culture on day 10 (spec window example). -/
def cxW4 : List CxRow := [⟨1, 0, 100, some 10⟩]

/-- Antibiotics on days 7, 8, 12, 13. -/
def abxW4 : List AbxRow := [⟨1, 0, 7⟩, ⟨1, 1, 8⟩, ⟨1, 2, 12⟩, ⟨1, 3, 13⟩]

/-- A culture on day 10 (tie-break example). -/
def cxW5 : List CxRow := [⟨1, 0, 100, some 10⟩]

/-- Antibiotics at table positions 0 (day 9) and 1 (day 8), both in window. -/
def abxW5 : List AbxRow := [⟨1, 0, 9⟩, ⟨1, 1, 8⟩]

/-- The candidate produced for `cxW5`/`abxW5`. -/
def candW5 : CandRow := ⟨1, 100, some 10, 0, 0, 1⟩

/-- SOFA scores 2, 0, 5, 9 on days 5–8: several qualifying pairs. -/
def sofaW7 : List SofaRow := [⟨1, 0, 5, 2⟩, ⟨1, 1, 6, 0⟩, ⟨1, 2, 7, 5⟩, ⟨1, 3, 8, 9⟩]

/-- A positive candidate of admission 7 with onset datetime 5. -/
def c1ex : FullCandidate :=
  ⟨some 7, some 5, some 5, some 1, some 1, some 1, some 1, some 1, some 2⟩

/-- A positive candidate of admission 7 with the earlier onset datetime 3. -/
def c2ex : FullCandidate :=
  ⟨some 7, some 3, some 3, some 2, some 2, some 1, some 1, some 3, some 4⟩

/-- A culture row of admission 1 whose day index could not be computed
(NaN, e.g. from a missing admission date). -/
def cxBad : CxRow := ⟨1, 3, 50, none⟩

/-- A well-formed culture row of admission 2, day 10. -/
def cxGood : CxRow := ⟨2, 7, 100, some 10⟩

/-- An antibiotic of admission 2 on day 9 (inside the 5-day window). -/
def abxGood : AbxRow := ⟨2, 5, 9⟩

/-- A SOFA sample of admission 2: day 8, score 2. -/
def sofaG1 : SofaRow := ⟨2, 20, 8, 2⟩

/-- A SOFA sample of admission 2: day 9, score 5 (a 3-point rise). -/
def sofaG2 : SofaRow := ⟨2, 21, 9, 5⟩

/-- The label row the pipeline produces for admission 1 above. -/
def labelBad : LabelRow := ⟨1, 0, 0, none, none, none, none, none, none⟩

/-- The label row the pipeline produces for admission 2 above. -/
def labelGood : LabelRow := ⟨2, 1, 1, some 100, some 10, some 7, some 5, some 20, some 21⟩

/-! ### Helper lemmas about `suspected_infections` -/

/-- Membership characterisation of the suspected-infection table: row `i`
is present exactly when culture `i` has a nonempty list of qualifying
antibiotics, and carries the first of them. -/
theorem mem_suspected_iff {cx : List CxRow} {abx : List AbxRow} {i : Nat}
    {r : CandRow} :
    (i, r) ∈ suspected_infections cx abx ↔
      ∃ c a rest, cx[i]? = some c ∧
        abx.filter (fun x => inAbxWindow c.cx_day x.abx_day) = a :: rest ∧
        r = mkCand c a := by
  unfold suspected_infections
  rw [List.mem_filterMap]
  constructor
  · rintro ⟨⟨j, c⟩, hmem, hf⟩
    rcases hfil : abx.filter (fun x => inAbxWindow c.cx_day x.abx_day) with _ | ⟨a, rest⟩
    · simp only [hfil] at hf
      exact Option.noConfusion hf
    · simp only [hfil, Option.some.injEq, Prod.mk.injEq] at hf
      obtain ⟨hj, hr⟩ := hf
      subst hj
      exact ⟨c, a, rest, List.mk_mem_enum_iff_getElem?.mp hmem, hfil, hr.symm⟩
  · rintro ⟨c, a, rest, hget, hfil, hr⟩
    refine ⟨(i, c), List.mk_mem_enum_iff_getElem?.mpr hget, ?_⟩
    simp only [hfil, hr]

/-- The first element of a filtered list is the first element of the
original list satisfying the predicate. -/
theorem filter_eq_cons_first {α : Type} {l : List α} {p : α → Bool} {a : α}
    {rest : List α} (h : l.filter p = a :: rest) :
    ∃ k : Nat, l[k]? = some a ∧ p a = true ∧
      ∀ (k' : Nat) (b : α), k' < k → l[k']? = some b → p b = false := by
  induction l generalizing rest with
  | nil => simp at h
  | cons x t ih =>
    by_cases hx : p x
    · rw [List.filter_cons_of_pos hx] at h
      obtain ⟨rfl, -⟩ := List.cons.inj h
      exact ⟨0, by simp, hx, fun k' b hk => absurd hk (Nat.not_lt_zero k')⟩
    · rw [List.filter_cons_of_neg hx] at h
      obtain ⟨k, hk, hpa, hfirst⟩ := ih h
      refine ⟨k + 1, ?_, hpa, ?_⟩
      · rw [List.getElem?_cons_succ]
        exact hk
      · intro k' b hk' hb
        cases k' with
        | zero =>
          rw [List.getElem?_cons_zero, Option.some.injEq] at hb
          subst hb
          exact Bool.eq_false_iff.mpr hx
        | succ m =>
          rw [List.getElem?_cons_succ] at hb
          exact hfirst m b (Nat.lt_of_succ_lt_succ hk') hb

/-- If a `filterMap` preserves the first component, the emitted first
components form a sublist of the original ones. -/
theorem map_fst_filterMap_sublist {α γ : Type} (l : List (Nat × α))
    (f : Nat × α → Option (Nat × γ))
    (hf : ∀ p q, f p = some q → q.1 = p.1) :
    ((l.filterMap f).map Prod.fst).Sublist (l.map Prod.fst) := by
  induction l with
  | nil => simp
  | cons x t ih =>
    rw [List.filterMap_cons]
    cases hfx : f x with
    | none => exact ih.cons x.1
    | some q =>
      rw [List.map_cons, List.map_cons, hf x q hfx]
      exact ih.cons₂ x.1

/-- On a list whose first components are distinct, filtering by a fixed
first component retains at most one element. -/
theorem length_filter_fst_le_one {γ : Type} {l : List (Nat × γ)}
    (h : (l.map Prod.fst).Nodup) (i : Nat) :
    (l.filter (fun p => p.1 == i)).length ≤ 1 := by
  induction l with
  | nil => simp
  | cons x t ih =>
    rw [List.map_cons, List.nodup_cons] at h
    by_cases hx : x.1 == i
    · rw [List.filter_cons, if_pos hx]
      have ht : t.filter (fun p => p.1 == i) = [] := by
        rw [List.filter_eq_nil_iff]
        intro q hq hqi
        apply h.1
        have h1 : q.1 = i := by simpa using hqi
        have h2 : x.1 = i := by simpa using hx
        rw [h2, ← h1]
        exact List.mem_map_of_mem Prod.fst hq
      rw [ht]
      simp
    · rw [List.filter_cons, if_neg hx]
      exact ih h.2

/-- The first components of the suspected-infection table are distinct. -/
theorem suspected_fst_nodup (cx : List CxRow) (abx : List AbxRow) :
    ((suspected_infections cx abx).map Prod.fst).Nodup := by
  have hsub := map_fst_filterMap_sublist cx.enum
      (fun ic =>
        match abx.filter (fun a => inAbxWindow ic.2.cx_day a.abx_day) with
        | [] => none
        | a :: _ => some (ic.1, mkCand ic.2 a))
      (by
        intro p q hpq
        rcases hfil : abx.filter (fun a => inAbxWindow p.2.cx_day a.abx_day) with _ | ⟨a, rest⟩
        · simp only [hfil] at hpq
          exact Option.noConfusion hpq
        · simp only [hfil, Option.some.injEq] at hpq
          rw [← hpq])
  have : (cx.enum.map Prod.fst).Nodup := by
    rw [List.enum_map_fst]
    exact List.nodup_range _
  exact this.sublist hsub

/-- C4: a (culture, antibiotic) pair qualifies iff the absolute day-index
difference is at most 2 (inclusive), and `suspected_infections` emits
exactly one candidate for a culture with at least one qualifying
antibiotic and none for a culture with zero qualifying antibiotics. -/
theorem suspected_infections_window (cx : List CxRow) (abx : List AbxRow)
    (i : Nat) (c : CxRow) (d : Int) (hc : cx[i]? = some c)
    (hd : c.cx_day = some d) :
    (∀ a : AbxRow, inAbxWindow c.cx_day a.abx_day
        = decide ((d - a.abx_day).natAbs ≤ 2)) ∧
    ((suspected_infections cx abx).filter (fun p => p.1 == i)).length
      = if abx.any (fun a => decide ((d - a.abx_day).natAbs ≤ 2)) then 1 else 0 := by
  have hwin : ∀ a : AbxRow, inAbxWindow c.cx_day a.abx_day
      = decide ((d - a.abx_day).natAbs ≤ 2) := by
    intro a
    rw [hd]
    rfl
  refine ⟨hwin, ?_⟩
  by_cases hany : abx.any (fun a => decide ((d - a.abx_day).natAbs ≤ 2))
  · rw [if_pos hany]
    rcases hfil : abx.filter (fun x => inAbxWindow c.cx_day x.abx_day) with _ | ⟨a0, rest⟩
    · exfalso
      obtain ⟨a, ha, hqa⟩ := List.any_eq_true.mp hany
      have : inAbxWindow c.cx_day a.abx_day = true := by
        rw [hwin a]
        simpa using hqa
      exact (List.filter_eq_nil_iff.mp hfil a ha) this
    · have hmem : (i, mkCand c a0) ∈ suspected_infections cx abx :=
        mem_suspected_iff.mpr ⟨c, a0, rest, hc, hfil, rfl⟩
      have hmemf : (i, mkCand c a0)
          ∈ (suspected_infections cx abx).filter (fun p => p.1 == i) := by
        rw [List.mem_filter]
        exact ⟨hmem, by simp⟩
      have h1 : 1 ≤ ((suspected_infections cx abx).filter (fun p => p.1 == i)).length := by
        rcases hfl : (suspected_infections cx abx).filter (fun p => p.1 == i)
          with _ | ⟨q, qs⟩
        · rw [hfl] at hmemf
          exact absurd hmemf (List.not_mem_nil _)
        · rw [hfl, List.length_cons]
          omega
      exact Nat.le_antisymm
        (length_filter_fst_le_one (suspected_fst_nodup cx abx) i) h1
  · rw [if_neg hany]
    rw [List.length_eq_zero]
    rw [List.filter_eq_nil_iff]
    rintro ⟨j, r⟩ hmem hji
    have hj : j = i := by simpa using hji
    subst hj
    obtain ⟨c', a, rest, hc', hfil, hr⟩ := mem_suspected_iff.mp hmem
    rw [hc] at hc'
    have hcc : c = c' := Option.some.inj hc'
    have ha0 : a ∈ abx.filter (fun x => inAbxWindow c'.cx_day x.abx_day) := by
      rw [hfil]
      exact List.mem_cons_self a rest
    rw [List.mem_filter] at ha0
    apply hany
    rw [List.any_eq_true]
    refine ⟨a, ha0.1, ?_⟩
    have h2 := ha0.2
    rw [← hcc, hwin a] at h2
    simpa using h2

/-- Witness for C4 at the spec's worked example: culture day 10 and
antibiotic days 7, 8, 12, 13 give exactly one candidate, and the
qualifying antibiotic set is exactly the days 8 and 12. -/
theorem suspected_infections_window_witness :
    ((suspected_infections cxW4 abxW4).filter (fun p => p.1 == 0)).length
      = (if abxW4.any (fun a => decide (((10 : Int) - a.abx_day).natAbs ≤ 2))
          then 1 else 0) ∧
    (abxW4.filter (fun a => inAbxWindow (some 10) a.abx_day)).map
        (fun a => a.abx_day) = [8, 12] :=
  ⟨(suspected_infections_window cxW4 abxW4 0 ⟨1, 0, 100, some 10⟩ 10 rfl rfl).2,
   by decide⟩

/-- C5: the antibiotic attributed to a candidate is the first qualifying
antibiotic in original table order: every antibiotic at an earlier table
position fails the window test. -/
theorem suspected_infections_first_abx (cx : List CxRow) (abx : List AbxRow)
    (i : Nat) (r : CandRow) (h : (i, r) ∈ suspected_infections cx abx) :
    ∃ c, cx[i]? = some c ∧
      ∃ (k : Nat) (a : AbxRow), abx[k]? = some a ∧
        inAbxWindow c.cx_day a.abx_day = true ∧ r.abx_index = a.abx_index ∧
        ∀ (k' : Nat) (a' : AbxRow), k' < k → abx[k']? = some a' →
          inAbxWindow c.cx_day a'.abx_day = false := by
  obtain ⟨c, a, rest, hc, hfil, hr⟩ := mem_suspected_iff.mp h
  obtain ⟨k, hk, hpa, hfirst⟩ := filter_eq_cons_first hfil
  exact ⟨c, hc, k, a, hk, hpa, by rw [hr]; rfl, fun k' a' hlt hget => hfirst k' a' hlt hget⟩

/-- Witness for C5 at the spec's tie-break example: culture day 10 with
antibiotics at positions 0 (day 9) and 1 (day 8) matches position 0. -/
theorem suspected_infections_first_abx_witness :
    (∃ c, cxW5[0]? = some c ∧
      ∃ (k : Nat) (a : AbxRow), abxW5[k]? = some a ∧
        inAbxWindow c.cx_day a.abx_day = true ∧ candW5.abx_index = a.abx_index ∧
        ∀ (k' : Nat) (a' : AbxRow), k' < k → abxW5[k']? = some a' →
          inAbxWindow c.cx_day a'.abx_day = false) ∧
    candW5.abx_index = 0 :=
  ⟨suspected_infections_first_abx cxW5 abxW5 0 candW5 (by decide), by decide⟩

/-! ### Helper lemmas about `organ_dysfunction` -/

/-- Membership in the lower-triangular pair list. -/
theorem trilPairs_mem {n i j : Nat} : (i, j) ∈ trilPairs n ↔ j < i ∧ i < n := by
  unfold trilPairs
  rw [List.mem_flatMap]
  constructor
  · rintro ⟨a, ha, hmem⟩
    rw [List.mem_map] at hmem
    obtain ⟨b, hb, heq⟩ := hmem
    obtain ⟨rfl, rfl⟩ := Prod.mk.inj heq
    exact ⟨List.mem_range.mp hb, List.mem_range.mp ha⟩
  · rintro ⟨hji, hin⟩
    exact ⟨i, List.mem_range.mpr hin,
      List.mem_map.mpr ⟨j, List.mem_range.mpr hji, rfl⟩⟩

/-- The row-major pair list is sorted in lexicographic order. -/
theorem trilPairs_pairwise (n : Nat) :
    (trilPairs n).Pairwise
      (fun p q => p.1 < q.1 ∨ (p.1 = q.1 ∧ p.2 < q.2)) := by
  unfold trilPairs
  rw [List.pairwise_flatMap]
  refine ⟨?_, ?_⟩
  · intro a _
    rw [List.pairwise_map]
    exact (List.pairwise_lt_range a).imp (fun h => Or.inr ⟨rfl, h⟩)
  · refine (List.pairwise_lt_range n).imp ?_
    intro a b hab x hx y hy
    rw [List.mem_map] at hx hy
    obtain ⟨jx, -, hjx⟩ := hx
    obtain ⟨jy, -, hjy⟩ := hy
    rw [← hjx, ← hjy]
    exact Or.inl hab

/-- No pair is returned exactly when no qualifying pair exists. -/
theorem firstIncPair_eq_none {v : List Int} :
    firstIncPair v = none ↔
      ¬ ∃ i j : Nat, j < i ∧ i < v.length ∧ v.getD i 0 - v.getD j 0 > 1 := by
  unfold firstIncPair
  rw [List.find?_eq_none]
  constructor
  · rintro h ⟨i, j, hji, hin, hgt⟩
    exact (h (i, j) (trilPairs_mem.mpr ⟨hji, hin⟩)) (by simpa using hgt)
  · rintro h ⟨i, j⟩ hp hpred
    obtain ⟨hji, hin⟩ := trilPairs_mem.mp hp
    exact h ⟨i, j, hji, hin, by simpa using hpred⟩

/-- `find?` returns the earliest match: on a `Pairwise`-ordered list, every
other match is related to the returned one. -/
theorem find?_first_min {α : Type} {l : List α} {p : α → Bool} {a : α}
    {R : α → α → Prop} (h : l.find? p = some a) (hpw : l.Pairwise R) :
    ∀ b ∈ l, p b = true → b = a ∨ R a b := by
  obtain ⟨hpa, as, bs, rfl, hnot⟩ := List.find?_eq_some.mp h
  intro b hb hpb
  rcases List.mem_append.mp hb with hb | hb
  · exact absurd hpb (by simpa using hnot b hb)
  · rcases List.mem_cons.mp hb with hb | hb
    · exact Or.inl hb
    · exact Or.inr (List.rel_of_pairwise_cons (List.pairwise_append.mp hpw).2.1 hb)

/-- C6: the dysfunction flag is 1 iff two samples in the inclusive window
`[day-3, day+3]`, the later strictly after the earlier in the restricted
window's order, differ by strictly more than 1. -/
theorem organ_dysfunction_flag_iff (day : Int) (sofa : List SofaRow) :
    (∀ s : SofaRow, inSofaWindow (some day) s.sofa_day
        = (decide (day - 3 ≤ s.sofa_day) && decide (s.sofa_day ≤ day + 3))) ∧
    ((organ_dysfunction (some day) sofa).is_sepsis = 1 ↔
      ∃ i j : Nat, j < i ∧ i < (sofaWindow (some day) sofa).length ∧
        (sofaVals (some day) sofa).getD i 0
          - (sofaVals (some day) sofa).getD j 0 > 1) := by
  refine ⟨fun s => rfl, ?_⟩
  have hlen : (sofaVals (some day) sofa).length
      = (sofaWindow (some day) sofa).length := List.length_map _ _
  unfold organ_dysfunction
  cases hfp : firstIncPair (sofaVals (some day) sofa) with
  | none =>
    have hno := firstIncPair_eq_none.mp hfp
    simp only []
    constructor
    · intro h0
      exact absurd h0 (by simp)
    · rintro ⟨i, j, hji, hin, hgt⟩
      exact absurd ⟨i, j, hji, by rw [hlen]; exact hin, hgt⟩ hno
  | some p =>
    obtain ⟨i, j⟩ := p
    have hmem := List.mem_of_find?_eq_some hfp
    have hpred := List.find?_some hfp
    obtain ⟨hji, hin⟩ := trilPairs_mem.mp hmem
    simp only []
    constructor
    · intro _
      exact ⟨i, j, hji, by rw [← hlen]; exact hin, by simpa using hpred⟩
    · intro _
      trivial

/-- C7: the returned pair is the row-major-first qualifying pair: it
qualifies, and every qualifying pair has a strictly larger later position
or the same later position and a no-smaller earlier position; the verdict
carries the two window rows' index labels. -/
theorem organ_dysfunction_first_pair (day : Int) (sofa : List SofaRow)
    (i j : Nat)
    (hfind : firstIncPair (sofaVals (some day) sofa) = some (i, j)) :
    (j < i ∧ i < (sofaWindow (some day) sofa).length ∧
      (sofaVals (some day) sofa).getD i 0
        - (sofaVals (some day) sofa).getD j 0 > 1) ∧
    (∀ i' j' : Nat, j' < i' → i' < (sofaWindow (some day) sofa).length →
      (sofaVals (some day) sofa).getD i' 0
        - (sofaVals (some day) sofa).getD j' 0 > 1 →
      i < i' ∨ (i = i' ∧ j ≤ j')) ∧
    (organ_dysfunction (some day) sofa).sofa_index_1
      = ((sofaWindow (some day) sofa)[j]?).map (fun s => s.sofa_index) ∧
    (organ_dysfunction (some day) sofa).sofa_index_2
      = ((sofaWindow (some day) sofa)[i]?).map (fun s => s.sofa_index) := by
  have hlen : (sofaVals (some day) sofa).length
      = (sofaWindow (some day) sofa).length := List.length_map _ _
  have hmem := List.mem_of_find?_eq_some hfind
  have hpred := List.find?_some hfind
  obtain ⟨hji, hin⟩ := trilPairs_mem.mp hmem
  refine ⟨⟨hji, by rw [← hlen]; exact hin, by simpa using hpred⟩, ?_, ?_, ?_⟩
  · intro i' j' hj' hi' hgt
    have hmem' : (i', j') ∈ trilPairs (sofaVals (some day) sofa).length :=
      trilPairs_mem.mpr ⟨hj', by rw [hlen]; exact hi'⟩
    rcases find?_first_min hfind (trilPairs_pairwise _) (i', j') hmem'
        (by simpa using hgt) with heq | hlt
    · have h1 := (Prod.mk.inj heq).1
      have h2 := (Prod.mk.inj heq).2
      exact Or.inr ⟨h1.symm, Nat.le_of_eq h2.symm⟩
    · rcases hlt with hfst | ⟨hfst, hsnd⟩
      · exact Or.inl hfst
      · exact Or.inr ⟨hfst, Nat.le_of_lt hsnd⟩
  · unfold organ_dysfunction
    rw [hfind]
  · unfold organ_dysfunction
    rw [hfind]

/-- Witness for C7: scores 2, 0, 5, 9 on days 5–8 around day 8 contain
several qualifying pairs; the verdict carries the row-major-first pair
(later position 2, earlier position 0), not the maximal increase. -/
theorem organ_dysfunction_first_pair_witness :
    (organ_dysfunction (some 8) sofaW7).sofa_index_1
        = ((sofaWindow (some 8) sofaW7)[0]?).map (fun s => s.sofa_index) ∧
    (organ_dysfunction (some 8) sofaW7).sofa_index_2
        = ((sofaWindow (some 8) sofaW7)[2]?).map (fun s => s.sofa_index) ∧
    (organ_dysfunction (some 8) sofaW7).sofa_index_2 = some 2 :=
  ⟨(organ_dysfunction_first_pair 8 sofaW7 2 0 (by decide)).2.2.1,
   (organ_dysfunction_first_pair 8 sofaW7 2 0 (by decide)).2.2.2,
   by decide⟩

/-- C8: the detector is total and never fails on absent data: with no
qualifying pair (in particular whenever the window holds at most one
sample) it returns flag 0 and NaN references, and with a qualifying pair
it returns flag 1 with both references populated. -/
theorem organ_dysfunction_total (day : Int) (sofa : List SofaRow) :
    ((¬ ∃ i j : Nat, j < i ∧ i < (sofaWindow (some day) sofa).length ∧
        (sofaVals (some day) sofa).getD i 0
          - (sofaVals (some day) sofa).getD j 0 > 1) →
      organ_dysfunction (some day) sofa = ⟨0, none, none⟩) ∧
    ((sofaWindow (some day) sofa).length ≤ 1 →
      organ_dysfunction (some day) sofa = ⟨0, none, none⟩) ∧
    ((∃ i j : Nat, j < i ∧ i < (sofaWindow (some day) sofa).length ∧
        (sofaVals (some day) sofa).getD i 0
          - (sofaVals (some day) sofa).getD j 0 > 1) →
      (organ_dysfunction (some day) sofa).is_sepsis = 1 ∧
      ∃ e l : Nat, (organ_dysfunction (some day) sofa).sofa_index_1 = some e ∧
        (organ_dysfunction (some day) sofa).sofa_index_2 = some l) := by
  have hlen : (sofaVals (some day) sofa).length
      = (sofaWindow (some day) sofa).length := List.length_map _ _
  have hmain : (¬ ∃ i j : Nat, j < i ∧ i < (sofaWindow (some day) sofa).length ∧
      (sofaVals (some day) sofa).getD i 0
        - (sofaVals (some day) sofa).getD j 0 > 1) →
      organ_dysfunction (some day) sofa = ⟨0, none, none⟩ := by
    intro hno
    have : firstIncPair (sofaVals (some day) sofa) = none := by
      rw [firstIncPair_eq_none]
      rintro ⟨i, j, hji, hin, hgt⟩
      exact hno ⟨i, j, hji, by rw [← hlen]; exact hin, hgt⟩
    unfold organ_dysfunction
    rw [this]
  refine ⟨hmain, ?_, ?_⟩
  · intro hle
    apply hmain
    rintro ⟨i, j, hji, hin, -⟩
    omega
  · rintro ⟨i, j, hji, hin, hgt⟩
    cases hfp : firstIncPair (sofaVals (some day) sofa) with
    | none =>
      exact absurd ⟨i, j, hji, by rw [hlen]; exact hin, hgt⟩
        (firstIncPair_eq_none.mp hfp)
    | some p =>
      obtain ⟨i0, j0⟩ := p
      obtain ⟨hji0, hin0⟩ := trilPairs_mem.mp (List.mem_of_find?_eq_some hfp)
      have hin0' : i0 < (sofaWindow (some day) sofa).length := by
        rw [← hlen]
        exact hin0
      have hj0' : j0 < (sofaWindow (some day) sofa).length :=
        Nat.lt_trans hji0 hin0'
      have hod : organ_dysfunction (some day) sofa
          = ⟨1, ((sofaWindow (some day) sofa)[j0]?).map (fun s => s.sofa_index),
              ((sofaWindow (some day) sofa)[i0]?).map (fun s => s.sofa_index)⟩ := by
        unfold organ_dysfunction
        rw [hfp]
      rw [hod]
      rw [List.getElem?_eq_getElem hj0', List.getElem?_eq_getElem hin0']
      exact ⟨rfl, _, _, rfl, rfl⟩

/-- Witness for C8: a window with a single sample yields the negative
verdict with NaN references. -/
theorem organ_dysfunction_total_witness :
    organ_dysfunction (some 10) [⟨1, 0, 10, 4⟩] = ⟨0, none, none⟩ :=
  (organ_dysfunction_total 10 [⟨1, 0, 10, 4⟩]).2.1 (by decide)

/-! ### Helper lemmas about `generate_sepsis_label_info` -/

/-- The rows of the label table matching admission `h` are copies of the
single row the resolver computes for `h`. -/
theorem gen_filter_eq (cohort : List Nat) (cands : List FullCandidate) (h : Nat) :
    (generate_sepsis_label_info cohort cands).filter (fun r => r.hadm_id == h)
      = ((List.insertionSort (fun a b => a ≤ b) cohort).filter
          (fun x => x == h)).map (fun _ => mkLabelRow h cands) := by
  unfold generate_sepsis_label_info
  rw [List.filter_map]
  have hcomp : ((fun r : LabelRow => r.hadm_id == h)
      ∘ (fun x => mkLabelRow x cands)) = fun x => x == h := by
    funext x
    rfl
  rw [hcomp]
  apply List.map_congr_left
  intro x hx
  have hxh : x = h := by
    have := (List.mem_filter.mp hx).2
    simpa using this
  rw [hxh]

/-- C3: every admission of the cohort table yields exactly one label row;
an admission with no candidate rows gets flags 0 and all onset and
back-reference fields null, and the output has one row per cohort row. -/
theorem generate_label_completeness (cohort : List Nat)
    (cands : List FullCandidate) (h : Nat) (hnd : cohort.Nodup)
    (hmem : h ∈ cohort) :
    ((generate_sepsis_label_info cohort cands).filter
        (fun r => r.hadm_id == h)).length = 1 ∧
    ((∀ c ∈ cands, c.hadm_id ≠ some h) →
      (generate_sepsis_label_info cohort cands).filter (fun r => r.hadm_id == h)
        = [⟨h, 0, 0, none, none, none, none, none, none⟩]) ∧
    (generate_sepsis_label_info cohort cands).length = cohort.length := by
  have hsort := List.perm_insertionSort (fun a b => a ≤ b) cohort
  have hflen : ((List.insertionSort (fun a b => a ≤ b) cohort).filter
      (fun x => x == h)).length = 1 := by
    rw [← List.countP_eq_length_filter, ← List.count_eq_countP,
      hsort.count_eq, List.count_eq_one_of_mem hnd hmem]
  refine ⟨?_, ?_, ?_⟩
  · rw [gen_filter_eq, List.length_map, hflen]
  · intro hno
    have hz : mkLabelRow h cands
        = ⟨h, 0, 0, none, none, none, none, none, none⟩ := by
      have hgrp : cands.filter (fun c => c.hadm_id == some h) = [] := by
        rw [List.filter_eq_nil_iff]
        intro c hc hbeq
        exact hno c hc (by simpa using hbeq)
      have hpos : cands.filter
          (fun c => c.is_sepsis == some 1 && c.hadm_id == some h) = [] := by
        rw [List.filter_eq_nil_iff]
        intro c hc hbeq
        rw [Bool.and_eq_true] at hbeq
        exact hno c hc (by simpa using hbeq.2)
      simp only [mkLabelRow]
      rw [hgrp, hpos]
      rfl
    have hone : (List.insertionSort (fun a b => a ≤ b) cohort).filter
        (fun x => x == h) = [h] := by
      obtain ⟨a, ha⟩ := List.length_eq_one.mp hflen
      have hmem' : a ∈ (List.insertionSort (fun a b => a ≤ b) cohort).filter
          (fun x => x == h) := by
        rw [ha]
        exact List.mem_cons_self a []
      have hah : a = h := by
        have := (List.mem_filter.mp hmem').2
        simpa using this
      rw [ha, hah]
    rw [gen_filter_eq, hone, List.map_cons, List.map_nil, hz]
  · unfold generate_sepsis_label_info
    rw [List.length_map]
    exact hsort.length_eq

/-- Witness for C3: a two-admission cohort with no candidates yields one
row for admission 3 and two rows in total. -/
theorem generate_label_completeness_witness :
    ((generate_sepsis_label_info [3, 4] []).filter
        (fun r => r.hadm_id == 3)).length = 1 ∧
    (generate_sepsis_label_info [3, 4] []).length = 2 :=
  ⟨(generate_label_completeness [3, 4] [] 3 (by decide) (by decide)).1,
   (generate_label_completeness [3, 4] [] 3 (by decide) (by decide)).2.2⟩

/-- C1 counterexample: with two positive candidates of admission 7 in row
order onset 5 then onset 3, the resolver attaches onset 5 — the first row,
not the minimum (3) — so the attached onset does not equal the minimum for
every order of the input candidate rows. -/
theorem generate_label_onset_not_min :
    ((generate_sepsis_label_info [7] [c1ex, c2ex]).map
        (fun r => r.onset_datetime)) = [some 5] ∧
    c2ex.hadm_id = some 7 ∧ c2ex.is_sepsis = some 1 ∧
    c2ex.onset_datetime = some 3 ∧ (3 : Int) < 5 := by
  refine ⟨by decide, rfl, rfl, rfl, by decide⟩

/-- C1 amended: the resolver attaches the onset fields of the first
positive candidate in input row order; when the admission's positive
candidates are ascending by onset datetime (as the pipeline produces
them), that onset is the minimum over the positive candidates. -/
theorem generate_label_onset_first_occurrence (cohort : List Nat)
    (cands : List FullCandidate) (h : Nat) (row : LabelRow)
    (c0 : FullCandidate) (cs : List FullCandidate)
    (hrow : row ∈ generate_sepsis_label_info cohort cands)
    (hh : row.hadm_id = h)
    (hpos : cands.filter (fun c => c.is_sepsis == some 1 && c.hadm_id == some h)
      = c0 :: cs) :
    (row.onset_datetime = c0.onset_datetime ∧ row.onset_day = c0.onset_day ∧
     row.cx_index = c0.cx_index ∧ row.abx_index = c0.abx_index ∧
     row.sofa_index_1 = c0.sofa_index_1 ∧ row.sofa_index_2 = c0.sofa_index_2) ∧
    ((c0 :: cs).Pairwise (fun a b => ∀ ta tb : Int,
        a.onset_datetime = some ta → b.onset_datetime = some tb → ta ≤ tb) →
      ∀ c ∈ cands.filter
          (fun c => c.is_sepsis == some 1 && c.hadm_id == some h),
        ∀ t0 tc : Int, c0.onset_datetime = some t0 →
          c.onset_datetime = some tc → t0 ≤ tc) := by
  obtain ⟨h', hmem', hrow'⟩ := List.mem_map.mp hrow
  subst hrow'
  have hh' : h' = h := hh
  rw [← hh'] at hpos
  rw [← hh']
  have hr : (cands.filter
      (fun c => c.is_sepsis == some 1 && c.hadm_id == some h')).head?
      = some c0 := by
    rw [hpos]
    rfl
  constructor
  · simp only [mkLabelRow]
    rw [hr]
    exact ⟨rfl, rfl, rfl, rfl, rfl, rfl⟩
  · intro hpw c hc t0 tc h0 htc
    rw [hpos] at hc
    rcases List.mem_cons.mp hc with hc | hc
    · subst hc
      rw [h0] at htc
      exact Int.le_of_eq (Option.some.inj htc)
    · exact (List.rel_of_pairwise_cons hpw hc) t0 tc h0 htc

/-- Witness for C1 amended, at the spec's example datetimes 3 and 5 in
ascending row order: the resolved label carries onset 3. -/
theorem generate_label_onset_first_occurrence_witness :
    (⟨7, 1, 1, some 3, some 3, some 2, some 2, some 3, some 4⟩
        : LabelRow).onset_datetime = c2ex.onset_datetime ∧
    (⟨7, 1, 1, some 3, some 3, some 2, some 2, some 3, some 4⟩
        : LabelRow).onset_day = c2ex.onset_day ∧
    (⟨7, 1, 1, some 3, some 3, some 2, some 2, some 3, some 4⟩
        : LabelRow).cx_index = c2ex.cx_index ∧
    (⟨7, 1, 1, some 3, some 3, some 2, some 2, some 3, some 4⟩
        : LabelRow).abx_index = c2ex.abx_index ∧
    (⟨7, 1, 1, some 3, some 3, some 2, some 2, some 3, some 4⟩
        : LabelRow).sofa_index_1 = c2ex.sofa_index_1 ∧
    (⟨7, 1, 1, some 3, some 3, some 2, some 2, some 3, some 4⟩
        : LabelRow).sofa_index_2 = c2ex.sofa_index_2 :=
  (generate_label_onset_first_occurrence [7] [c2ex, c1ex] 7
    ⟨7, 1, 1, some 3, some 3, some 2, some 2, some 3, some 4⟩ c2ex [c1ex]
    (by decide) rfl (by decide)).1

/-! ### Invariants of the aggregated candidate table -/

/-- The dysfunction flag is always 0 or 1. -/
theorem organ_dysfunction_is_sepsis_le_one (day : Option Int)
    (sofa : List SofaRow) : (organ_dysfunction day sofa).is_sepsis ≤ 1 := by
  unfold organ_dysfunction
  cases firstIncPair (sofaVals day sofa) with
  | none => exact Nat.zero_le 1
  | some p =>
    obtain ⟨i, j⟩ := p
    exact Nat.le_refl 1

/-- Shape of a row of one admission's aligned candidate table: its
candidate part (when present) belongs to the admission and carries
`is_infection = 1`, and its verdict part (when present) has a 0/1 flag. -/
theorem patient_candidates_shape (h' : Nat) (cx : List CxRow)
    (abx : List AbxRow) (sofa : List SofaRow) (c : FullCandidate)
    (hc : c ∈ patient_candidates h' cx abx sofa) :
    ∃ (c? : Option CandRow) (v? : Option Verdict), c = mkFull c? v? ∧
      (∀ cr, c? = some cr → cr.hadm_id = h' ∧ cr.is_infection = 1) ∧
      (∀ v, v? = some v → v.is_sepsis ≤ 1) := by
  simp only [patient_candidates, alignedCandidates] at hc
  obtain ⟨i, hi, hmk⟩ := List.mem_map.mp hc
  refine ⟨_, _, hmk.symm, ?_, ?_⟩
  · intro cr hcr
    rw [Option.map_eq_some'] at hcr
    obtain ⟨⟨j, cr'⟩, hfind, hsnd⟩ := hcr
    have hmem := List.mem_of_find?_eq_some hfind
    obtain ⟨cc, a, rest, hcc, hfil, hr⟩ := mem_suspected_iff.mp hmem
    have hcmem : cc ∈ cx.filter (fun r => r.hadm_id == h') :=
      List.getElem?_mem hcc
    have hch : cc.hadm_id = h' := by
      have := (List.mem_filter.mp hcmem).2
      simpa using this
    have hsnd' : cr' = cr := hsnd
    subst hsnd'
    rw [hr]
    exact ⟨hch, rfl⟩
  · intro v hv
    have hvmem := List.getElem?_mem hv
    rw [List.mem_map] at hvmem
    obtain ⟨p, -, hp⟩ := hvmem
    rw [← hp]
    exact organ_dysfunction_is_sepsis_le_one _ _

/-- Rows of the full candidate table with a present admission id carry
`is_infection = some 1`, and their sepsis flag, when present, is 0 or 1. -/
theorem core_mem_shape (cx : List CxRow) (abx : List AbxRow)
    (sofa : List SofaRow) (c : FullCandidate)
    (hc : c ∈ sepsis_onset_candidates_core cx abx sofa) :
    (∀ h', c.hadm_id = some h' → c.is_infection = some 1) ∧
    (∀ v, c.is_sepsis = some v → v ≤ 1) := by
  unfold sepsis_onset_candidates_core at hc
  rw [List.mem_flatMap] at hc
  obtain ⟨h0, -, hc⟩ := hc
  obtain ⟨c?, v?, rfl, hcand, hverd⟩ := patient_candidates_shape h0 cx abx sofa c hc
  constructor
  · intro h' hh'
    rcases c? with _ | cr
    · exact absurd hh' (by simp [mkFull])
    · have h1 := (hcand cr rfl).2
      simp [mkFull, h1]
  · intro v hv
    rcases v? with _ | vd
    · exact absurd hv (by simp [mkFull])
    · have h1 := hverd vd rfl
      have h2 : vd.is_sepsis = v := by simpa [mkFull] using hv
      rw [← h2]
      exact h1

/-- `natMax0` is bounded by any bound on the elements. -/
theorem natMax0_le {l : List Nat} {n : Nat} (h : ∀ x ∈ l, x ≤ n) :
    natMax0 l ≤ n := by
  induction l with
  | nil => exact Nat.zero_le n
  | cons a t ih =>
    unfold natMax0 at ih ⊢
    rw [List.foldr_cons]
    exact Nat.max_le.mpr ⟨h a (List.mem_cons_self a t),
      ih (fun x hx => h x (List.mem_cons_of_mem a hx))⟩

/-- `natMax0` dominates every element. -/
theorem le_natMax0 {l : List Nat} {x : Nat} (h : x ∈ l) : x ≤ natMax0 l := by
  induction l with
  | nil => exact absurd h (List.not_mem_nil x)
  | cons a t ih =>
    unfold natMax0 at ih ⊢
    rw [List.foldr_cons]
    rcases List.mem_cons.mp h with rfl | h
    · exact Nat.le_max_left x _
    · exact Nat.le_trans (ih h) (Nat.le_max_right a _)

/-- C10: in every label row produced by the pipeline, the sepsis flag never
exceeds the infection flag. -/
theorem label_sepsis_le_infection (cohort : List Nat) (cx : List CxRow)
    (abx : List AbxRow) (sofa : List SofaRow) (labels : List LabelRow)
    (row : LabelRow)
    (hassign : assign_sepsis_labels cohort cx abx sofa = some labels)
    (hrow : row ∈ labels) : row.is_sepsis ≤ row.is_infection := by
  unfold assign_sepsis_labels sepsis_onset_candidates at hassign
  by_cases hemp : (sepsis_onset_candidates_core cx abx sofa).isEmpty
  · rw [if_pos hemp] at hassign
    exact absurd hassign (by simp)
  · rw [if_neg hemp] at hassign
    simp only [Option.map_some', Option.some.injEq] at hassign
    rw [← hassign] at hrow
    obtain ⟨h', -, hrow'⟩ := List.mem_map.mp hrow
    subst hrow'
    simp only [mkLabelRow]
    have hsep_le : natMax0 (((sepsis_onset_candidates_core cx abx sofa).filter
        (fun c => c.hadm_id == some h')).filterMap (fun c => c.is_sepsis)) ≤ 1 := by
      apply natMax0_le
      intro x hx
      rw [List.mem_filterMap] at hx
      obtain ⟨c, hc, hcx⟩ := hx
      exact (core_mem_shape cx abx sofa c (List.mem_filter.mp hc).1).2 x hcx
    rcases hsepl : ((sepsis_onset_candidates_core cx abx sofa).filter
        (fun c => c.hadm_id == some h')).filterMap (fun c => c.is_sepsis)
      with _ | ⟨x, xs⟩
    · rw [hsepl]
      exact Nat.zero_le _
    · have hx : x ∈ ((sepsis_onset_candidates_core cx abx sofa).filter
          (fun c => c.hadm_id == some h')).filterMap (fun c => c.is_sepsis) := by
        rw [hsepl]
        exact List.mem_cons_self x xs
      rw [List.mem_filterMap] at hx
      obtain ⟨c, hcgrp, -⟩ := hx
      obtain ⟨hcc, hch⟩ := List.mem_filter.mp hcgrp
      have hchadm : c.hadm_id = some h' := by simpa using hch
      have hinf : c.is_infection = some 1 :=
        (core_mem_shape cx abx sofa c hcc).1 h' hchadm
      have hmem1 : 1 ∈ ((sepsis_onset_candidates_core cx abx sofa).filter
          (fun c => c.hadm_id == some h')).filterMap (fun c => c.is_infection) :=
        List.mem_filterMap.mpr ⟨c, hcgrp, by rw [hinf]⟩
      exact Nat.le_trans hsep_le (le_natMax0 hmem1)

/-- Witness for C10 at a concrete pipeline run with a positive sepsis
label. -/
theorem label_sepsis_le_infection_witness :
    labelGood.is_sepsis ≤ labelGood.is_infection :=
  label_sepsis_le_infection [2] [cxGood] [abxGood] [sofaG1, sofaG2]
    [labelGood] labelGood (by decide) (by decide)

/-- C9: the label-assignment chain is deterministic: equal inputs give
equal label tables, including equal back-reference index columns. -/
theorem assign_labels_deterministic (cohort₁ cohort₂ : List Nat)
    (cx₁ cx₂ : List CxRow) (abx₁ abx₂ : List AbxRow)
    (sofa₁ sofa₂ : List SofaRow)
    (hco : cohort₁ = cohort₂) (hcx : cx₁ = cx₂) (habx : abx₁ = abx₂)
    (hsofa : sofa₁ = sofa₂) :
    assign_sepsis_labels cohort₁ cx₁ abx₁ sofa₁
      = assign_sepsis_labels cohort₂ cx₂ abx₂ sofa₂ ∧
    (assign_sepsis_labels cohort₁ cx₁ abx₁ sofa₁).map
        (fun l => l.map
          (fun r => (r.cx_index, r.abx_index, r.sofa_index_1, r.sofa_index_2)))
      = (assign_sepsis_labels cohort₂ cx₂ abx₂ sofa₂).map
        (fun l => l.map
          (fun r => (r.cx_index, r.abx_index, r.sofa_index_1, r.sofa_index_2))) := by
  subst hco
  subst hcx
  subst habx
  subst hsofa
  exact ⟨rfl, rfl⟩

/-- Witness for C9 at a concrete pipeline input. -/
theorem assign_labels_deterministic_witness :
    assign_sepsis_labels [2] [cxGood] [abxGood] [sofaG1, sofaG2]
      = assign_sepsis_labels [2] [cxGood] [abxGood] [sofaG1, sofaG2] :=
  (assign_labels_deterministic [2] [2] [cxGood] [cxGood] [abxGood] [abxGood]
    [sofaG1, sofaG2] [sofaG1, sofaG2] rfl rfl rfl rfl).1

/-- C2 counterexample: a batch with admission 1 whose culture day index is
uncomputable (NaN) and a well-formed admission 2.  The pipeline returns
only a label table — no error report — and admission 1 is not excluded: it
receives a row with both flags 0 and null onset fields. -/
theorem assign_labels_no_error_report :
    assign_sepsis_labels [1, 2] [cxBad, cxGood] [abxGood] [sofaG1, sofaG2]
      = some [labelBad, labelGood] ∧
    cxBad.cx_day = none ∧ labelBad.hadm_id = 1 ∧
    labelBad.is_infection = 0 ∧ labelBad.is_sepsis = 0 :=
  ⟨by decide, rfl, rfl, rfl, rfl⟩

/-! ### Per-admission isolation of the pipeline -/

/-- Membership in the first-occurrence dedup accumulator. -/
theorem mem_uniqueKeepAux {x : Nat} (l : List Nat) :
    ∀ seen, x ∈ uniqueKeepAux l seen ↔ x ∈ l ∧ x ∉ seen := by
  induction l with
  | nil =>
    intro seen
    simp [uniqueKeepAux]
  | cons a t ih =>
    intro seen
    unfold uniqueKeepAux
    by_cases ha : seen.contains a
    · have ha' : a ∈ seen := by simpa using ha
      rw [if_pos ha, ih seen]
      constructor
      · rintro ⟨hx, hns⟩
        exact ⟨List.mem_cons_of_mem a hx, hns⟩
      · rintro ⟨hx, hns⟩
        rcases List.mem_cons.mp hx with rfl | hx
        · exact absurd ha' hns
        · exact ⟨hx, hns⟩
    · have ha' : a ∉ seen := by simpa using ha
      rw [if_neg ha]
      constructor
      · intro hx
        rcases List.mem_cons.mp hx with rfl | hx
        · exact ⟨List.mem_cons_self x t, ha'⟩
        · obtain ⟨h1, h2⟩ := (ih (a :: seen)).mp hx
          exact ⟨List.mem_cons_of_mem a h1,
            fun hc => h2 (List.mem_cons_of_mem a hc)⟩
      · rintro ⟨hx, hns⟩
        rcases List.mem_cons.mp hx with rfl | hx
        · exact List.mem_cons_self x _
        · by_cases hxa : x = a
          · subst hxa
            exact List.mem_cons_self x _
          · apply List.mem_cons_of_mem
            rw [ih (a :: seen)]
            exact ⟨hx, fun hc =>
              (List.mem_cons.mp hc).elim (fun hcc => hxa hcc) (fun hcc => hns hcc)⟩

/-- The dedup accumulator emits distinct values. -/
theorem nodup_uniqueKeepAux (l : List Nat) :
    ∀ seen, (uniqueKeepAux l seen).Nodup := by
  induction l with
  | nil =>
    intro seen
    exact List.nodup_nil
  | cons a t ih =>
    intro seen
    unfold uniqueKeepAux
    by_cases ha : seen.contains a
    · rw [if_pos ha]
      exact ih seen
    · rw [if_neg ha]
      rw [List.nodup_cons]
      exact ⟨fun hc => ((mem_uniqueKeepAux t (a :: seen)).mp hc).2
        (List.mem_cons_self a seen), ih (a :: seen)⟩

/-- `uniqueKeep` preserves membership. -/
theorem mem_uniqueKeep {x : Nat} {l : List Nat} : x ∈ uniqueKeep l ↔ x ∈ l := by
  unfold uniqueKeep
  rw [mem_uniqueKeepAux l []]
  simp

/-- `uniqueKeep` emits distinct values. -/
theorem nodup_uniqueKeep (l : List Nat) : (uniqueKeep l).Nodup :=
  nodup_uniqueKeepAux l []

/-- A `flatMap` whose pieces vanish except possibly at one key collapses
to that key's piece. -/
theorem flatMap_single {β : Type} (l : List Nat) (f : Nat → List β) (h : Nat)
    (hnd : l.Nodup) (hz : ∀ h' ∈ l, h' ≠ h → f h' = []) :
    l.flatMap f = if h ∈ l then f h else [] := by
  induction l with
  | nil => simp
  | cons a t ih =>
    rw [List.flatMap_cons]
    rw [List.nodup_cons] at hnd
    by_cases hah : a = h
    · subst hah
      have ht : t.flatMap f = [] := by
        rw [ih hnd.2 (fun h' hm hne => hz h' (List.mem_cons_of_mem a hm) hne)]
        exact if_neg hnd.1
      rw [ht, List.append_nil, if_pos (List.mem_cons_self a t)]
    · rw [hz a (List.mem_cons_self a t) hah, List.nil_append]
      rw [ih hnd.2 (fun h' hm hne => hz h' (List.mem_cons_of_mem a hm) hne)]
      by_cases hht : h ∈ t
      · rw [if_pos hht, if_pos (List.mem_cons_of_mem a hht)]
      · rw [if_neg hht, if_neg (fun hc =>
          (List.mem_cons.mp hc).elim (fun hcc => hah hcc.symm)
            (fun hcc => hht hcc))]

/-- Rows of one admission's candidate table never carry another
admission's id. -/
theorem patient_candidates_filter_ne {h h' : Nat} (hne : h' ≠ h)
    (cx : List CxRow) (abx : List AbxRow) (sofa : List SofaRow) :
    (patient_candidates h' cx abx sofa).filter
      (fun c => c.hadm_id == some h) = [] := by
  rw [List.filter_eq_nil_iff]
  intro c hc hbeq
  obtain ⟨c?, v?, rfl, hcand, -⟩ := patient_candidates_shape h' cx abx sofa c hc
  rcases c? with _ | cr
  · simp [mkFull] at hbeq
  · have h1 := (hcand cr rfl).1
    have h2 : cr.hadm_id = h := by simpa [mkFull] using hbeq
    rw [h1] at h2
    exact hne h2

/-- An admission with no culture rows yields an empty candidate table. -/
theorem patient_candidates_empty {h : Nat} {cx : List CxRow}
    (abx : List AbxRow) (sofa : List SofaRow)
    (hcx : cx.filter (fun r => r.hadm_id == h) = []) :
    patient_candidates h cx abx sofa = [] := by
  simp only [patient_candidates]
  rw [hcx]
  rfl

/-- Repeated filtering is idle. -/
theorem filter_idem {α : Type} (l : List α) (p : α → Bool) :
    (l.filter p).filter p = l.filter p := by
  rw [List.filter_filter]
  exact List.filter_congr (fun a _ => Bool.and_self (p a))

/-- The admission's candidate table only depends on the admission's own
event rows. -/
theorem patient_candidates_filter_inputs (h : Nat) (cx : List CxRow)
    (abx : List AbxRow) (sofa : List SofaRow) :
    patient_candidates h (cx.filter (fun r => r.hadm_id == h))
        (abx.filter (fun r => r.hadm_id == h))
        (sofa.filter (fun r => r.hadm_id == h))
      = patient_candidates h cx abx sofa := by
  simp only [patient_candidates]
  rw [filter_idem, filter_idem, filter_idem]

/-- The rows of the aggregated candidate table carrying admission `h` are
exactly those of `h`'s own per-admission table. -/
theorem core_filter_hadm (cx : List CxRow) (abx : List AbxRow)
    (sofa : List SofaRow) (h : Nat) :
    (sepsis_onset_candidates_core cx abx sofa).filter
        (fun c => c.hadm_id == some h)
      = (patient_candidates h cx abx sofa).filter
        (fun c => c.hadm_id == some h) := by
  unfold sepsis_onset_candidates_core
  rw [List.filter_flatMap]
  rw [flatMap_single _ _ h (nodup_uniqueKeep _)
    (fun h' _ hne => patient_candidates_filter_ne hne cx abx sofa)]
  by_cases hmem : h ∈ uniqueKeep (cx.map (fun r => r.hadm_id))
  · rw [if_pos hmem]
  · rw [if_neg hmem]
    have hcx : cx.filter (fun r => r.hadm_id == h) = [] := by
      rw [List.filter_eq_nil_iff]
      intro r hr hbeq
      apply hmem
      rw [mem_uniqueKeep]
      exact List.mem_map.mpr ⟨r, hr, by simpa using hbeq⟩
    rw [patient_candidates_empty abx sofa hcx]
    rfl

/-- The resolver's row for `h` only depends on the candidate rows carrying
admission `h`. -/
theorem mkLabelRow_filter (h : Nat) (cands : List FullCandidate) :
    mkLabelRow h (cands.filter (fun c => c.hadm_id == some h))
      = mkLabelRow h cands := by
  have hgrp : (cands.filter (fun c => c.hadm_id == some h)).filter
      (fun c => c.hadm_id == some h)
      = cands.filter (fun c => c.hadm_id == some h) := filter_idem _ _
  have hpos : (cands.filter (fun c => c.hadm_id == some h)).filter
      (fun c => c.is_sepsis == some 1 && c.hadm_id == some h)
      = cands.filter (fun c => c.is_sepsis == some 1 && c.hadm_id == some h) := by
    rw [List.filter_filter]
    exact List.filter_congr (fun c _ => by
      cases c.is_sepsis == some 1 <;> cases c.hadm_id == some h <;> rfl)
  simp only [mkLabelRow]
  rw [hgrp, hpos]

/-- C2 amended: per-admission isolation.  The label rows the pipeline core
produces for an admission `h` are unchanged when every other admission's
event rows are removed, so corrupt data of one admission cannot alter
another admission's label. -/
theorem label_isolation (cohort : List Nat) (cx : List CxRow)
    (abx : List AbxRow) (sofa : List SofaRow) (h : Nat) :
    (generate_sepsis_label_info cohort
        (sepsis_onset_candidates_core cx abx sofa)).filter
      (fun r => r.hadm_id == h)
      = (generate_sepsis_label_info cohort
          (sepsis_onset_candidates_core (cx.filter (fun r => r.hadm_id == h))
            (abx.filter (fun r => r.hadm_id == h))
            (sofa.filter (fun r => r.hadm_id == h)))).filter
        (fun r => r.hadm_id == h) := by
  rw [gen_filter_eq, gen_filter_eq]
  have hmk : mkLabelRow h (sepsis_onset_candidates_core cx abx sofa)
      = mkLabelRow h (sepsis_onset_candidates_core
          (cx.filter (fun r => r.hadm_id == h))
          (abx.filter (fun r => r.hadm_id == h))
          (sofa.filter (fun r => r.hadm_id == h))) := by
    rw [← mkLabelRow_filter h (sepsis_onset_candidates_core cx abx sofa),
      ← mkLabelRow_filter h (sepsis_onset_candidates_core
        (cx.filter (fun r => r.hadm_id == h))
        (abx.filter (fun r => r.hadm_id == h))
        (sofa.filter (fun r => r.hadm_id == h)))]
    rw [core_filter_hadm, core_filter_hadm]
    rw [patient_candidates_filter_inputs]
  rw [hmk]
